import Mathlib

/-!
Shallow embedding of the AMM core contracts of this repository
(`Factory.sol`, `Pair.sol`, `Router.sol`, Solidity ^0.8.21).

Modelling conventions
 - Unsigned 256-bit EVM arithmetic is modelled on `Nat` with explicit bound
   checks: Solidity ^0.8 checked arithmetic reverts on overflow, underflow and
   division by zero, so every arithmetic step that could revert is guarded by
   an explicit test against `U256` (or a zero divisor) in source order.
 - The `uint112` reserve slots written by `Pair._update` are modelled by
   reduction mod `2 ^ 112`, matching Solidity's silently truncating explicit
   downcast `uint112(balance)`.
 - External token custody (`IERC20.balanceOf` / `transfer`) is out of the
   contract's storage: each operation receives the balances it would observe
   after the external transfers as explicit parameters, mirroring the
   transfer-then-notify protocol of the source.
 - `revert` with a custom error or require-string is an `Except.error` carrying
   the corresponding error kind; the EVM arithmetic panics are the
   `ArithmeticOverflow` / `DivisionByZero` kinds.
 - The `blockTimestampLast` slot is an environment timestamp never read by any
   claim and is omitted from the state.
-/

def U256 : Nat := 2 ^ 256

def U112 : Nat := 2 ^ 112

/-- Error kinds of the core (spec taxonomy) plus the two EVM arithmetic panics. -/
inductive AmmError where
  | IdenticalTokens
  | ZeroToken
  | PairExists
  | PairNotFound
  | InsufficientLiquidity
  | InsufficientInput
  | InsufficientOutput
  | SlippageExceeded
  | PathTooShort
  | TransferFailed
  | ArithmeticOverflow
  | DivisionByZero
  deriving DecidableEq

/-- Storage of one `Pair` contract. `self` is `address(this)` (the pair holds its
own LP shares during `burn`); `reserve0`/`reserve1` are the `uint112` slots;
`balanceOf`/`allowance` are the LP-token ERC20 maps. Addresses are an
arbitrary type `α`. The immutable `token0`/`token1` identities are only used to
address the external token contracts and never enter the state transition, so
they are not part of the state. -/
structure PairState (α : Type) where
  self : α
  reserve0 : Nat
  reserve1 : Nat
  totalSupply : Nat
  balanceOf : α → Nat
  allowance : α → α → Nat

namespace Pair

variable {α : Type}

/-- Loop of `Pair.sqrt`: `while (x < z) { z = x; x = (y / x + x) / 2; }`,
returning `z` on exit. -/
def sqrtIter (y x z : Nat) : Nat :=
  if h : x < z then sqrtIter y ((y / x + x) / 2) x else z
termination_by z

/-- `Pair.sqrt` from `Pair.sol`: Babylonian integer square root
(`z = y; x = y / 2 + 1` before the loop for `y > 3`; `1` for `0 < y ≤ 3`;
`0` for `y = 0`). -/
def sqrt (y : Nat) : Nat :=
  if 3 < y then sqrtIter y (y / 2 + 1) y
  else if y ≠ 0 then 1 else 0

/-- Implied input amount read back in `Pair.swap`:
`balance > (reserve - amountOut) ? balance - (reserve - amountOut) : 0`.
The subtraction `reserve - amountOut` cannot underflow at its use site because
`swap` has already checked `amountOut < reserve`. -/
def impliedIn (balance reserve amountOut : Nat) : Nat :=
  if reserve - amountOut < balance then balance - (reserve - amountOut) else 0

/-- `Pair.swap`. `balance0`/`balance1` are the token balances observed after the
optimistic transfers of the requested outputs to the recipient; the recipient
itself only receives external tokens and does not affect pair storage. -/
def swap (s : PairState α) (amountOut0 amountOut1 balance0 balance1 : Nat) :
    Except AmmError (PairState α) :=
  if amountOut0 = 0 ∧ amountOut1 = 0 then .error .InsufficientOutput
  else if s.reserve0 ≤ amountOut0 ∨ s.reserve1 ≤ amountOut1 then .error .InsufficientLiquidity
  else if impliedIn balance0 s.reserve0 amountOut0 = 0 ∧
          impliedIn balance1 s.reserve1 amountOut1 = 0 then .error .InsufficientInput
  else if U256 ≤ balance0 * 1000 then .error .ArithmeticOverflow
  else if U256 ≤ impliedIn balance0 s.reserve0 amountOut0 * 3 then .error .ArithmeticOverflow
  else if balance0 * 1000 < impliedIn balance0 s.reserve0 amountOut0 * 3 then
    .error .ArithmeticOverflow
  else if U256 ≤ balance1 * 1000 then .error .ArithmeticOverflow
  else if U256 ≤ impliedIn balance1 s.reserve1 amountOut1 * 3 then .error .ArithmeticOverflow
  else if balance1 * 1000 < impliedIn balance1 s.reserve1 amountOut1 * 3 then
    .error .ArithmeticOverflow
  else if U256 ≤ (balance0 * 1000 - impliedIn balance0 s.reserve0 amountOut0 * 3) *
                 (balance1 * 1000 - impliedIn balance1 s.reserve1 amountOut1 * 3) then
    .error .ArithmeticOverflow
  else if U256 ≤ s.reserve0 * s.reserve1 then .error .ArithmeticOverflow
  else if U256 ≤ s.reserve0 * s.reserve1 * 1000 ^ 2 then .error .ArithmeticOverflow
  else if (balance0 * 1000 - impliedIn balance0 s.reserve0 amountOut0 * 3) *
          (balance1 * 1000 - impliedIn balance1 s.reserve1 amountOut1 * 3) <
          s.reserve0 * s.reserve1 * 1000 ^ 2 then .error .InsufficientInput
  else .ok { s with reserve0 := balance0 % U112, reserve1 := balance1 % U112 }

/-- Tail of `Pair.mint` once `liquidity` has been computed: the zero-liquidity
guard, `_mint(to, liquidity)` and `_update(balance0, balance1)`. -/
def mintShares [DecidableEq α] (s : PairState α) (balance0 balance1 : Nat) (dst : α)
    (liquidity : Nat) : Except AmmError (PairState α × Nat) :=
  if liquidity = 0 then .error .InsufficientLiquidity
  else if U256 ≤ s.totalSupply + liquidity then .error .ArithmeticOverflow
  else if U256 ≤ s.balanceOf dst + liquidity then .error .ArithmeticOverflow
  else .ok ({ s with
      totalSupply := s.totalSupply + liquidity,
      balanceOf := Function.update s.balanceOf dst (s.balanceOf dst + liquidity),
      reserve0 := balance0 % U112, reserve1 := balance1 % U112 }, liquidity)

/-- `Pair.mint`. `balance0`/`balance1` are the token balances observed after the
caller transferred the deposit in; `dst` receives the issued shares. -/
def mint [DecidableEq α] (s : PairState α) (balance0 balance1 : Nat) (dst : α) :
    Except AmmError (PairState α × Nat) :=
  if balance0 < s.reserve0 ∨ balance1 < s.reserve1 then .error .ArithmeticOverflow
  else if balance0 - s.reserve0 = 0 ∨ balance1 - s.reserve1 = 0 then .error .InsufficientLiquidity
  else if s.totalSupply = 0 then
    if U256 ≤ (balance0 - s.reserve0) * (balance1 - s.reserve1) then .error .ArithmeticOverflow
    else mintShares s balance0 balance1 dst
      (sqrt ((balance0 - s.reserve0) * (balance1 - s.reserve1)))
  else if U256 ≤ (balance0 - s.reserve0) * s.totalSupply then .error .ArithmeticOverflow
  else if s.reserve0 = 0 then .error .DivisionByZero
  else if U256 ≤ (balance1 - s.reserve1) * s.totalSupply then .error .ArithmeticOverflow
  else if s.reserve1 = 0 then .error .DivisionByZero
  else mintShares s balance0 balance1 dst
    (Nat.min ((balance0 - s.reserve0) * s.totalSupply / s.reserve0)
             ((balance1 - s.reserve1) * s.totalSupply / s.reserve1))

/-- `Pair.burn`. The burnt amount is the pair's own LP balance
(`balanceOf[address(this)]`); `balance0`/`balance1` are the token balances
observed after paying `amount0`/`amount1` out to the recipient, which receives
only external tokens. -/
def burn [DecidableEq α] (s : PairState α) (balance0 balance1 : Nat) :
    Except AmmError (PairState α × Nat × Nat) :=
  if U256 ≤ s.balanceOf s.self * s.reserve0 then .error .ArithmeticOverflow
  else if s.totalSupply = 0 then .error .DivisionByZero
  else if U256 ≤ s.balanceOf s.self * s.reserve1 then .error .ArithmeticOverflow
  else if s.totalSupply < s.balanceOf s.self then .error .ArithmeticOverflow
  else .ok ({ s with
      balanceOf := Function.update s.balanceOf s.self (s.balanceOf s.self - s.balanceOf s.self),
      totalSupply := s.totalSupply - s.balanceOf s.self,
      reserve0 := balance0 % U112, reserve1 := balance1 % U112 },
    s.balanceOf s.self * s.reserve0 / s.totalSupply,
    s.balanceOf s.self * s.reserve1 / s.totalSupply)

/-- Sequential balance update `balanceOf[src] -= value; balanceOf[dst] += value`
shared by `Pair.transfer` and `Pair.transferFrom` (note the second read sees the
first write when `src = dst`). -/
def moveShares [DecidableEq α] (s : PairState α) (src dst : α) (value : Nat) :
    Except AmmError (PairState α) :=
  if s.balanceOf src < value then .error .ArithmeticOverflow
  else if U256 ≤ Function.update s.balanceOf src (s.balanceOf src - value) dst + value then
    .error .ArithmeticOverflow
  else .ok { s with balanceOf :=
      (Function.update (Function.update s.balanceOf src (s.balanceOf src - value)) dst
        (Function.update s.balanceOf src (s.balanceOf src - value) dst + value)) }

/-- LP-token `Pair.transfer`; `sender` is `msg.sender`. -/
def transfer [DecidableEq α] (s : PairState α) (sender dst : α) (value : Nat) :
    Except AmmError (PairState α) :=
  moveShares s sender dst value

/-- LP-token `Pair.transferFrom`; `caller` is `msg.sender`. The allowance is
decremented first unless it is the `type(uint256).max` sentinel. -/
def transferFrom [DecidableEq α] (s : PairState α) (caller fromAcct dst : α) (value : Nat) :
    Except AmmError (PairState α) :=
  if s.allowance fromAcct caller = U256 - 1 then moveShares s fromAcct dst value
  else if s.allowance fromAcct caller < value then .error .ArithmeticOverflow
  else moveShares
    { s with allowance := fun a b =>
        if a = fromAcct ∧ b = caller then s.allowance fromAcct caller - value
        else s.allowance a b }
    fromAcct dst value

end Pair

/-- Storage of the `Factory` contract: the `getPair` double mapping (the zero
address denotes absence, as in Solidity storage) and the `allPairs` array.
Token and pair addresses are `Nat`, with `0` the zero address. -/
structure FactoryState where
  getPair : Nat → Nat → Nat
  allPairs : List Nat

namespace Factory

/-- One store into the Solidity double mapping: `getPair[x][y] = v`. -/
def mapStore (g : Nat → Nat → Nat) (x y v : Nat) : Nat → Nat → Nat :=
  fun a b => if a = x ∧ b = y then v else g a b

/-- Success tail of `Factory.createPair`: the two sequential mapping writes
(`getPair[token0][token1] = pair; getPair[token1][token0] = pair`, the reverse
direction second) and the `allPairs.push(pair)`. -/
def registerPair (st : FactoryState) (token0 token1 newPair : Nat) : FactoryState :=
  { getPair := mapStore (mapStore st.getPair token0 token1 newPair) token1 token0 newPair,
    allPairs := st.allPairs ++ [newPair] }

/-- `Factory.createPair`. `newPair` is the fresh address of the deployed pair
(`address(new Pair(token0, token1))`), chosen by the environment. -/
def createPair (st : FactoryState) (tokenA tokenB newPair : Nat) :
    Except AmmError (FactoryState × Nat) :=
  if tokenA = tokenB then .error .IdenticalTokens
  else if (if tokenA < tokenB then tokenA else tokenB) = 0 then .error .ZeroToken
  else if st.getPair (if tokenA < tokenB then tokenA else tokenB)
                     (if tokenA < tokenB then tokenB else tokenA) ≠ 0 then .error .PairExists
  else .ok (registerPair st (if tokenA < tokenB then tokenA else tokenB)
    (if tokenA < tokenB then tokenB else tokenA) newPair, newPair)

end Factory

namespace Router

/-- `Router.getAmountOut`: closed-form constant-product quote with the 0.30%
fee applied to the input, truncating division. -/
def getAmountOut (amountIn reserveIn reserveOut : Nat) : Except AmmError Nat :=
  if amountIn = 0 then .error .InsufficientInput
  else if reserveIn = 0 ∨ reserveOut = 0 then .error .InsufficientLiquidity
  else if U256 ≤ amountIn * 997 then .error .ArithmeticOverflow
  else if U256 ≤ amountIn * 997 * reserveOut then .error .ArithmeticOverflow
  else if U256 ≤ reserveIn * 1000 then .error .ArithmeticOverflow
  else if U256 ≤ reserveIn * 1000 + amountIn * 997 then .error .ArithmeticOverflow
  else .ok (amountIn * 997 * reserveOut / (reserveIn * 1000 + amountIn * 997))

/-- Reserve orientation of `Router.getAmountsOut`:
`(reserveIn, reserveOut) = path[i] < path[i+1] ? (r0, r1) : (r1, r0)`. -/
def orient (t0 t1 r0 r1 : Nat) : Nat × Nat :=
  if t0 < t1 then (r0, r1) else (r1, r0)

/-- Loop of `Router.getAmountsOut`; `res` maps a pair address to the
`(reserve0, reserve1)` returned by its `getReserves`. Each hop looks up the
pair of the consecutive tokens, orients the reserves by the token order and
feeds the previous amount through `getAmountOut`. -/
def getAmountsOutGo (fst : FactoryState) (res : Nat → Nat × Nat) :
    Nat → List Nat → Except AmmError (List Nat)
  | amountIn, t0 :: t1 :: rest =>
    if fst.getPair t0 t1 = 0 then .error .PairNotFound
    else
      match getAmountOut amountIn
          (orient t0 t1 (res (fst.getPair t0 t1)).1 (res (fst.getPair t0 t1)).2).1
          (orient t0 t1 (res (fst.getPair t0 t1)).1 (res (fst.getPair t0 t1)).2).2 with
      | .error e => .error e
      | .ok next =>
        match getAmountsOutGo fst res next (t1 :: rest) with
        | .error e => .error e
        | .ok tail => .ok (amountIn :: tail)
  | amountIn, _ => .ok [amountIn]

/-- `Router.getAmountsOut`. -/
def getAmountsOut (fst : FactoryState) (res : Nat → Nat × Nat) (amountIn : Nat)
    (path : List Nat) : Except AmmError (List Nat) :=
  if path.length < 2 then .error .PathTooShort
  else getAmountsOutGo fst res amountIn path

end Router

/-- The share-mutating entry points of the pair: `mint`, `burn` and the
LP-token `transfer`/`transferFrom`. -/
inductive LPOp (α : Type) where
  | mintOp (balance0 balance1 : Nat) (dst : α)
  | burnOp (balance0 balance1 : Nat)
  | transferOp (sender dst : α) (value : Nat)
  | transferFromOp (caller fromAcct dst : α) (value : Nat)

/-- Apply one operation; a reverting call leaves storage unchanged (each
top-level call is atomic). -/
def stepOp {α : Type} [DecidableEq α] (s : PairState α) : LPOp α → PairState α
  | .mintOp b0 b1 dst =>
    match Pair.mint s b0 b1 dst with
    | .ok (s', _) => s'
    | .error _ => s
  | .burnOp b0 b1 =>
    match Pair.burn s b0 b1 with
    | .ok (s', _, _) => s'
    | .error _ => s
  | .transferOp sender dst v =>
    match Pair.transfer s sender dst v with
    | .ok s' => s'
    | .error _ => s
  | .transferFromOp c f t v =>
    match Pair.transferFrom s c f t v with
    | .ok s' => s'
    | .error _ => s

/-- Run a sequence of share-mutating operations. -/
def runOps {α : Type} [DecidableEq α] (s : PairState α) (ops : List (LPOp α)) : PairState α :=
  ops.foldl stepOp s

/-- A freshly created pair: zero reserves, zero supply, empty maps. -/
def freshPair {α : Type} (self : α) : PairState α :=
  { self := self, reserve0 := 0, reserve1 := 0, totalSupply := 0,
    balanceOf := fun _ => 0, allowance := fun _ _ => 0 }

section SqrtLemmas

/-- One Babylonian iterate never falls below the integer square root:
for `1 ≤ x`, `Nat.sqrt y ≤ (y / x + x) / 2`. -/
theorem sqrt_iterate_ge (y x : Nat) (hx : 1 ≤ x) : Nat.sqrt y ≤ (y / x + x) / 2 := by
  have hss : Nat.sqrt y * Nat.sqrt y ≤ y := Nat.sqrt_le y
  have h1 : (2 * Nat.sqrt y - x) * x ≤ Nat.sqrt y * Nat.sqrt y := by
    rcases Nat.le_total (2 * Nat.sqrt y) x with h | h
    · simp [Nat.sub_eq_zero_of_le h]
    · zify [h]
      nlinarith [sq_nonneg ((Nat.sqrt y : Int) - x)]
  have h2 : 2 * Nat.sqrt y - x ≤ Nat.sqrt y * Nat.sqrt y / x :=
    (Nat.le_div_iff_mul_le hx).2 h1
  have h3 : Nat.sqrt y * Nat.sqrt y / x ≤ y / x := Nat.div_le_div_right hss
  have h4 : Nat.sqrt y * 2 ≤ y / x + x := by omega
  exact (Nat.le_div_iff_mul_le (by omega)).2 h4

/-- The loop of `Pair.sqrt` converges to `Nat.sqrt y` from any entry state
satisfying the loop invariant (current iterate and previous iterate are at
least the true root, and the previous iterate is exact if the loop is done). -/
theorem sqrtIter_eq_sqrt (y x z : Nat) (hy : 4 ≤ y) (hx1 : 1 ≤ x)
    (hxs : Nat.sqrt y ≤ x) (hend : z ≤ x → z = Nat.sqrt y) :
    Pair.sqrtIter y x z = Nat.sqrt y := by
  unfold Pair.sqrtIter
  split
  case isTrue h =>
    have hs2 : 2 ≤ Nat.sqrt y := Nat.le_sqrt.2 (by omega)
    have hnext : Nat.sqrt y ≤ (y / x + x) / 2 := sqrt_iterate_ge y x hx1
    refine sqrtIter_eq_sqrt y ((y / x + x) / 2) x hy (by omega) hnext ?_
    intro hle
    have hx2 : x * 2 ≤ y / x + x := (Nat.le_div_iff_mul_le (by omega)).1 hle
    have hxy : x ≤ y / x := by omega
    have hxx : x * x ≤ y := (Nat.le_div_iff_mul_le hx1).1 hxy
    have : x ≤ Nat.sqrt y := Nat.le_sqrt.2 hxx
    omega
  case isFalse h =>
    exact hend (by omega)
termination_by z

/-- `Pair.sqrt` computes the integer (floor) square root. -/
theorem pair_sqrt_eq_nat_sqrt (y : Nat) : Pair.sqrt y = Nat.sqrt y := by
  unfold Pair.sqrt
  split
  case isTrue hy =>
    refine sqrtIter_eq_sqrt y (y / 2 + 1) y (by omega) (by omega) ?_ ?_
    · rcases Nat.lt_or_ge (Nat.sqrt y) 2 with h | h
      · omega
      · have h2 : Nat.sqrt y * Nat.sqrt y ≤ y := Nat.sqrt_le y
        have h3 : Nat.sqrt y * 2 ≤ y := by nlinarith
        have h4 : Nat.sqrt y ≤ y / 2 := (Nat.le_div_iff_mul_le (by omega)).2 h3
        omega
    · intro hle
      omega
  case isFalse hy =>
    split
    case isTrue h =>
      have h1 : 1 ≤ Nat.sqrt y := Nat.le_sqrt.2 (by omega)
      have h2 : Nat.sqrt y < 2 := Nat.sqrt_lt.2 (by omega)
      omega
    case isFalse h =>
      have : y = 0 := by omega
      subst this
      simp

end SqrtLemmas

/-- C7: for every unsigned integer `y`, the ledger's integer square root
terminates and returns `0` for `y = 0`, `1` for `0 < y ≤ 3`, and for `y > 3`
the converged Babylonian iteration, which equals the floor of the real square
root of `y` (`Nat.sqrt`); in fact `Pair.sqrt y = Nat.sqrt y` for all `y`. -/
theorem c7_sqrt_functional_correctness (y : Nat) :
    (y = 0 → Pair.sqrt y = 0) ∧ (0 < y → y ≤ 3 → Pair.sqrt y = 1) ∧
    Pair.sqrt y = Nat.sqrt y := by
  refine ⟨?_, ?_, pair_sqrt_eq_nat_sqrt y⟩
  · intro h
    subst h
    rfl
  · intro h1 h2
    rw [pair_sqrt_eq_nat_sqrt]
    have ha : 1 ≤ Nat.sqrt y := Nat.le_sqrt.2 (by omega)
    have hb : Nat.sqrt y < 2 := Nat.sqrt_lt.2 (by omega)
    omega

/-- Witness for C7 at concrete inputs `y = 0`, `y = 2` and `y = 36`. -/
theorem c7_sqrt_functional_correctness_witness :
    Pair.sqrt 0 = 0 ∧ Pair.sqrt 2 = 1 ∧ Pair.sqrt 36 = Nat.sqrt 36 :=
  ⟨(c7_sqrt_functional_correctness 0).1 rfl,
   (c7_sqrt_functional_correctness 2).2.1 (by decide) (by decide),
   (c7_sqrt_functional_correctness 36).2.2⟩

/-- Evaluation of `Pair.sqrt` at the spec's first-deposit worked example. -/
theorem pair_sqrt_36 : Pair.sqrt 36 = 6 := by
  rw [pair_sqrt_eq_nat_sqrt]
  have h1 : 6 ≤ Nat.sqrt 36 := Nat.le_sqrt.2 (by norm_num)
  have h2 : Nat.sqrt 36 < 7 := Nat.sqrt_lt.2 (by norm_num)
  omega

/-- C3 counterexample: the first deposit `addLiquidity(4, 9)` on an empty
ledger does NOT issue 2 shares (it issues `floor(sqrt 36) = 6`). -/
theorem c3_first_deposit_counterexample :
    (Pair.mint (freshPair ()) 4 9 ()).map Prod.snd ≠ .ok 2 := by
  have h : (Pair.mint (freshPair ()) 4 9 ()).map Prod.snd = .ok 6 := by
    simp [Pair.mint, Pair.mintShares, freshPair, pair_sqrt_36, U256, U112, Except.map]
  rw [h]
  simp

/-- C3 amended: the first deposit on an empty ledger mints
`floor(sqrt(amount0 * amount1))` shares, which for `addLiquidity(4, 9)` is
`Nat.sqrt 36 = 6` (not 2 as the spec's worked example says). -/
theorem c3_first_deposit_amended :
    (Pair.mint (freshPair ()) 4 9 ()).map Prod.snd = .ok (Nat.sqrt (4 * 9)) := by
  have h36 : Nat.sqrt (4 * 9) = 6 := by
    rw [← pair_sqrt_eq_nat_sqrt]
    exact pair_sqrt_36
  rw [h36]
  simp [Pair.mint, Pair.mintShares, freshPair, pair_sqrt_36, U256, U112, Except.map]

/-- A ledger whose reserve0 slot is zero (e.g. freshly created). -/
def zeroR0Ledger : PairState Unit :=
  { self := (), reserve0 := 0, reserve1 := 50, totalSupply := 0,
    balanceOf := fun _ => 0, allowance := fun _ _ => 0 }

/-- C4 counterexample: on a ledger with `reserve0 = 0`, requesting
`amountOut0 = reserve0 (= 0), amountOut1 = 0` fails with `InsufficientOutput`
(the both-outputs-zero check fires first), not `InsufficientLiquidity`. -/
theorem c4_drain_counterexample :
    Pair.swap zeroR0Ledger zeroR0Ledger.reserve0 0 0 0 = .error .InsufficientOutput ∧
    Pair.swap zeroR0Ledger zeroR0Ledger.reserve0 0 0 0 ≠ .error .InsufficientLiquidity := by
  constructor
  · rfl
  · intro h
    have h2 : (AmmError.InsufficientOutput) = (AmmError.InsufficientLiquidity) := by
      have h1 : Pair.swap zeroR0Ledger zeroR0Ledger.reserve0 0 0 0
          = .error .InsufficientOutput := rfl
      exact Except.error.inj (h1.symm.trans h)
    cases h2

/-- C4 amended: on any ledger with `0 < reserve0`, a swap requesting
`amountOut0 ≥ reserve0` with `amountOut1 = 0` always fails with
`InsufficientLiquidity`, whatever balances would be observed: an output equal
to or exceeding the reserve is rejected, so a (nonempty) ledger can never be
fully drained. -/
theorem c4_drain_rejected {α : Type} (s : PairState α) (amountOut0 b0 b1 : Nat)
    (h0 : 0 < s.reserve0) (h1 : s.reserve0 ≤ amountOut0) :
    Pair.swap s amountOut0 0 b0 b1 = .error .InsufficientLiquidity := by
  unfold Pair.swap
  rw [if_neg (by omega), if_pos (Or.inl h1)]

/-- Concrete ledger for the C4 witness. -/
def c4Ledger : PairState Unit :=
  { self := (), reserve0 := 5, reserve1 := 7, totalSupply := 3,
    balanceOf := fun _ => 0, allowance := fun _ _ => 0 }

/-- Witness for C4 amended at `reserve0 = 5`. -/
theorem c4_drain_rejected_witness :
    Pair.swap c4Ledger 5 0 0 0 = .error .InsufficientLiquidity :=
  c4_drain_rejected c4Ledger 5 0 0 (by decide) (by decide)

/-- C10: `burn` on a ledger with `totalShares = 0` fails with the
division-by-zero arithmetic panic (not an error kind of the spec's taxonomy),
provided the preceding product does not itself overflow; and on a ledger with
`totalShares > 0` holding none of its own shares, `burn` succeeds, returns
`(0, 0)` and leaves the state unchanged (no minimum-redemption check), when the
observed balances equal the recorded (in-range) reserves. -/
theorem c10_burn_edge_cases {α : Type} [DecidableEq α] (s : PairState α) (b0 b1 : Nat) :
    (s.totalSupply = 0 → s.balanceOf s.self * s.reserve0 < U256 →
      Pair.burn s b0 b1 = .error .DivisionByZero) ∧
    (0 < s.totalSupply → s.balanceOf s.self = 0 → s.reserve0 < U112 → s.reserve1 < U112 →
      Pair.burn s s.reserve0 s.reserve1 = .ok (s, 0, 0)) := by
  constructor
  · intro hts hov
    unfold Pair.burn
    rw [if_neg (by omega), if_pos hts]
  · intro hts hself hr0 hr1
    unfold Pair.burn
    rw [if_neg (by rw [hself]; simp [U256]), if_neg (by omega),
        if_neg (by rw [hself]; simp [U256]), if_neg (by omega)]
    rw [hself]
    have hupd : Function.update s.balanceOf s.self 0 = s.balanceOf := by
      rw [← hself]
      exact Function.update_eq_self _ _
    simp [Nat.mod_eq_of_lt hr0, Nat.mod_eq_of_lt hr1, hupd]

/-- Ledger with positive total supply holding none of its own shares, for the
C10 witness. -/
def c10Ledger : PairState Unit :=
  { self := (), reserve0 := 10, reserve1 := 20, totalSupply := 5,
    balanceOf := fun _ => 0, allowance := fun _ _ => 0 }

/-- Witness for C10: a fresh (zero-supply) ledger panics with division by
zero, and `c10Ledger` burns zero shares into `(0, 0)` with no state change. -/
theorem c10_burn_edge_cases_witness :
    Pair.burn (freshPair ()) 0 0 = .error .DivisionByZero ∧
    Pair.burn c10Ledger 10 20 = .ok (c10Ledger, 0, 0) :=
  ⟨(c10_burn_edge_cases (freshPair ()) 0 0).1 rfl (by decide),
   (c10_burn_edge_cases c10Ledger 0 0).2 (by decide) rfl (by decide) (by decide)⟩

/-- C8: `createPair` fails with `IdenticalTokens` when the tokens are equal;
otherwise with `ZeroToken` exactly when the smaller token is the zero address;
otherwise with `PairExists` exactly when the unordered pair is already
registered; otherwise it succeeds, registering the fresh ledger under both
lookup orders (so `getPair` is symmetric for this pair), appending it to
`allPairs`, and touching no other mapping entry — hence at most one ledger can
ever exist per unordered token pair. -/
theorem c8_createPair_characterization (st : FactoryState) (tA tB np : Nat) :
    (tA = tB → Factory.createPair st tA tB np = .error .IdenticalTokens) ∧
    (tA ≠ tB → min tA tB = 0 →
      Factory.createPair st tA tB np = .error .ZeroToken) ∧
    (tA ≠ tB → min tA tB ≠ 0 → st.getPair (min tA tB) (max tA tB) ≠ 0 →
      Factory.createPair st tA tB np = .error .PairExists) ∧
    (tA ≠ tB → min tA tB ≠ 0 → st.getPair (min tA tB) (max tA tB) = 0 →
      Factory.createPair st tA tB np =
        .ok (Factory.registerPair st (min tA tB) (max tA tB) np, np) ∧
      (Factory.registerPair st (min tA tB) (max tA tB) np).getPair tA tB = np ∧
      (Factory.registerPair st (min tA tB) (max tA tB) np).getPair tB tA = np ∧
      (Factory.registerPair st (min tA tB) (max tA tB) np).allPairs
        = st.allPairs ++ [np] ∧
      (∀ a b : Nat, (a ≠ min tA tB ∨ b ≠ max tA tB) →
        (a ≠ max tA tB ∨ b ≠ min tA tB) →
        (Factory.registerPair st (min tA tB) (max tA tB) np).getPair a b
          = st.getPair a b)) := by
  have hmin : (if tA < tB then tA else tB) = min tA tB := by
    split_ifs <;> omega
  have hmax : (if tA < tB then tB else tA) = max tA tB := by
    split_ifs <;> omega
  refine ⟨?_, ?_, ?_, ?_⟩
  · intro h
    unfold Factory.createPair
    rw [if_pos h]
  · intro hne h0
    unfold Factory.createPair
    rw [if_neg hne, hmin, if_pos h0]
  · intro hne h0 hex
    unfold Factory.createPair
    rw [if_neg hne, hmin, hmax, if_neg h0, if_pos hex]
  · intro hne h0 hnex
    unfold Factory.createPair
    rw [if_neg hne, hmin, hmax, if_neg h0, if_neg (fun h => h hnex)]
    refine ⟨rfl, ?_, ?_, rfl, ?_⟩
    · simp only [Factory.registerPair, Factory.mapStore]
      rcases Nat.lt_trichotomy tA tB with h | h | h
      · rw [if_neg (by omega), if_pos (by omega)]
      · exact absurd h hne
      · rw [if_pos (by omega)]
    · simp only [Factory.registerPair, Factory.mapStore]
      rcases Nat.lt_trichotomy tA tB with h | h | h
      · rw [if_pos (by omega)]
      · exact absurd h hne
      · rw [if_neg (by omega), if_pos (by omega)]
    · intro a b hab1 hab2
      simp only [Factory.registerPair, Factory.mapStore]
      rw [if_neg (by omega), if_neg (by omega)]

/-- The factory's initial state: empty mapping, no pairs. -/
def emptyFactory : FactoryState := { getPair := fun _ _ => 0, allPairs := [] }

/-- Witness for C8: creating the pair (2, 1) at fresh address 7 on the empty
factory succeeds and registers both lookup orders. -/
theorem c8_createPair_characterization_witness :
    Factory.createPair emptyFactory 2 1 7 =
      .ok (Factory.registerPair emptyFactory (min 2 1) (max 2 1) 7, 7) ∧
    (Factory.registerPair emptyFactory (min 2 1) (max 2 1) 7).getPair 2 1 = 7 ∧
    (Factory.registerPair emptyFactory (min 2 1) (max 2 1) 7).getPair 1 2 = 7 := by
  obtain ⟨h1, h2, h3, _, _⟩ :=
    (c8_createPair_characterization emptyFactory 2 1 7).2.2.2 (by decide) (by decide) rfl
  exact ⟨h1, h2, h3⟩


/-- Inversion of a successful `Pair.swap`: the fee-adjusted invariant check
passed, and the resulting state stores the (truncated) observed balances. -/
theorem swap_ok_inversion {α : Type} (s : PairState α) (o0 o1 b0 b1 : Nat)
    (s' : PairState α) (h : Pair.swap s o0 o1 b0 b1 = .ok s') :
    s.reserve0 * s.reserve1 * 1000 ^ 2 ≤
      (b0 * 1000 - Pair.impliedIn b0 s.reserve0 o0 * 3) *
      (b1 * 1000 - Pair.impliedIn b1 s.reserve1 o1 * 3) ∧
    s' = { s with reserve0 := b0 % U112, reserve1 := b1 % U112 } := by
  unfold Pair.swap at h
  by_cases hc1 : o0 = 0 ∧ o1 = 0
  · rw [if_pos hc1] at h
    exact Except.noConfusion h
  rw [if_neg hc1] at h
  by_cases hc2 : s.reserve0 ≤ o0 ∨ s.reserve1 ≤ o1
  · rw [if_pos hc2] at h
    exact Except.noConfusion h
  rw [if_neg hc2] at h
  by_cases hc3 : Pair.impliedIn b0 s.reserve0 o0 = 0 ∧ Pair.impliedIn b1 s.reserve1 o1 = 0
  · rw [if_pos hc3] at h
    exact Except.noConfusion h
  rw [if_neg hc3] at h
  by_cases hc4 : U256 ≤ b0 * 1000
  · rw [if_pos hc4] at h
    exact Except.noConfusion h
  rw [if_neg hc4] at h
  by_cases hc5 : U256 ≤ Pair.impliedIn b0 s.reserve0 o0 * 3
  · rw [if_pos hc5] at h
    exact Except.noConfusion h
  rw [if_neg hc5] at h
  by_cases hc6 : b0 * 1000 < Pair.impliedIn b0 s.reserve0 o0 * 3
  · rw [if_pos hc6] at h
    exact Except.noConfusion h
  rw [if_neg hc6] at h
  by_cases hc7 : U256 ≤ b1 * 1000
  · rw [if_pos hc7] at h
    exact Except.noConfusion h
  rw [if_neg hc7] at h
  by_cases hc8 : U256 ≤ Pair.impliedIn b1 s.reserve1 o1 * 3
  · rw [if_pos hc8] at h
    exact Except.noConfusion h
  rw [if_neg hc8] at h
  by_cases hc9 : b1 * 1000 < Pair.impliedIn b1 s.reserve1 o1 * 3
  · rw [if_pos hc9] at h
    exact Except.noConfusion h
  rw [if_neg hc9] at h
  by_cases hc10 : U256 ≤ (b0 * 1000 - Pair.impliedIn b0 s.reserve0 o0 * 3) *
      (b1 * 1000 - Pair.impliedIn b1 s.reserve1 o1 * 3)
  · rw [if_pos hc10] at h
    exact Except.noConfusion h
  rw [if_neg hc10] at h
  by_cases hc11 : U256 ≤ s.reserve0 * s.reserve1
  · rw [if_pos hc11] at h
    exact Except.noConfusion h
  rw [if_neg hc11] at h
  by_cases hc12 : U256 ≤ s.reserve0 * s.reserve1 * 1000 ^ 2
  · rw [if_pos hc12] at h
    exact Except.noConfusion h
  rw [if_neg hc12] at h
  by_cases hc13 : (b0 * 1000 - Pair.impliedIn b0 s.reserve0 o0 * 3) *
      (b1 * 1000 - Pair.impliedIn b1 s.reserve1 o1 * 3) <
      s.reserve0 * s.reserve1 * 1000 ^ 2
  · rw [if_pos hc13] at h
    exact Except.noConfusion h
  rw [if_neg hc13] at h
  exact ⟨Nat.le_of_not_lt hc13, (Except.ok.inj h).symm⟩

/-- Ledger exhibiting the truncating reserve resync (claim C5). -/
def c5Ledger : PairState Unit :=
  { self := (), reserve0 := 2 ^ 111, reserve1 := 2 ^ 111, totalSupply := 0,
    balanceOf := fun _ => 0, allowance := fun _ _ => 0 }

/-- C5: at the failing input (observed custody `balance0 = 2 ^ 112 + 5` after
the optimistic transfer), the swap succeeds — no `ArithmeticOverflow` — and the
resync silently stores `reserve0 = (2 ^ 112 + 5) % 2 ^ 112 = 5`, which differs
from the ledger's actual custody `2 ^ 112 + 5`: the `uint112` downcast in
`_update` wraps silently, contradicting the detectable-overflow requirement and
invariant I3. -/
theorem c5_resync_truncates :
    Pair.swap c5Ledger 0 1 (2 ^ 112 + 5) (2 ^ 111 - 1) =
      .ok { c5Ledger with reserve0 := 5, reserve1 := 2 ^ 111 - 1 } ∧
    (5 : Nat) ≠ 2 ^ 112 + 5 := by
  constructor
  · simp [Pair.swap, c5Ledger, Pair.impliedIn, U256, U112]
  · decide

/-- Ledger for the C1 counterexample. -/
def c1Ledger : PairState Unit :=
  { self := (), reserve0 := 2 ^ 110, reserve1 := 2 ^ 110, totalSupply := 0,
    balanceOf := fun _ => 0, allowance := fun _ _ => 0 }

/-- Post-state of the C1 counterexample swap. -/
def c1Post : PairState Unit := { c1Ledger with reserve0 := 0, reserve1 := 2 ^ 110 - 1 }

/-- C1 counterexample: a swap that passes the fee-adjusted invariant check and
succeeds, yet strictly decreases the product of the stored reserves, because
the resync truncates the observed balance `2 ^ 112` to `0` in the `uint112`
reserve slot. -/
theorem c1_monotonicity_counterexample :
    Pair.swap c1Ledger 0 1 (2 ^ 112) (2 ^ 110 - 1) = .ok c1Post ∧
    c1Post.reserve0 * c1Post.reserve1 < c1Ledger.reserve0 * c1Ledger.reserve1 := by
  constructor
  · simp [Pair.swap, c1Ledger, c1Post, Pair.impliedIn, U256, U112]
  · decide

/-- C1 amended: every successful swap whose observed post-swap balances fit in
the `uint112` reserve slots (no truncation at the resync) does not decrease the
product of the reserves: the fee-adjusted check forces
`balance0 * balance1 ≥ reserve0 * reserve1` since each adjusted balance is at
most the scaled balance, and the new reserves equal the balances. -/
theorem c1_swap_product_monotone {α : Type} (s : PairState α)
    (amountOut0 amountOut1 balance0 balance1 : Nat) (s' : PairState α)
    (hb0 : balance0 < U112) (hb1 : balance1 < U112)
    (h : Pair.swap s amountOut0 amountOut1 balance0 balance1 = .ok s') :
    s.reserve0 * s.reserve1 ≤ s'.reserve0 * s'.reserve1 := by
  obtain ⟨hA, hs'⟩ := swap_ok_inversion s amountOut0 amountOut1 balance0 balance1 s' h
  subst hs'
  show s.reserve0 * s.reserve1 ≤ (balance0 % U112) * (balance1 % U112)
  rw [Nat.mod_eq_of_lt hb0, Nat.mod_eq_of_lt hb1]
  have hB : (balance0 * 1000 - Pair.impliedIn balance0 s.reserve0 amountOut0 * 3) *
      (balance1 * 1000 - Pair.impliedIn balance1 s.reserve1 amountOut1 * 3) ≤
      (balance0 * 1000) * (balance1 * 1000) :=
    Nat.mul_le_mul (Nat.sub_le _ _) (Nat.sub_le _ _)
  have hC : s.reserve0 * s.reserve1 * 1000 ^ 2 ≤ balance0 * balance1 * 1000 ^ 2 := by
    calc s.reserve0 * s.reserve1 * 1000 ^ 2 ≤
        (balance0 * 1000) * (balance1 * 1000) := le_trans hA hB
      _ = balance0 * balance1 * 1000 ^ 2 := by ring
  exact Nat.le_of_mul_le_mul_right hC (by norm_num)

/-- Ledger for the C1 witness: reserves (1000, 1000). -/
def c1SmallLedger : PairState Unit :=
  { self := (), reserve0 := 1000, reserve1 := 1000, totalSupply := 0,
    balanceOf := fun _ => 0, allowance := fun _ _ => 0 }

/-- Witness for C1 amended: a concrete in-range successful swap (input 100 of
token0 against reserves (1000, 1000), output 90 of token1) does not decrease
the reserve product. -/
theorem c1_swap_product_monotone_witness :
    c1SmallLedger.reserve0 * c1SmallLedger.reserve1 ≤
      ({ c1SmallLedger with reserve0 := 1100 % U112, reserve1 := 910 % U112 } :
        PairState Unit).reserve0 *
      ({ c1SmallLedger with reserve0 := 1100 % U112, reserve1 := 910 % U112 } :
        PairState Unit).reserve1 :=
  c1_swap_product_monotone c1SmallLedger 0 90 1100 910
    { c1SmallLedger with reserve0 := 1100 % U112, reserve1 := 910 % U112 }
    (by decide) (by decide)
    (by simp [Pair.swap, c1SmallLedger, Pair.impliedIn, U256, U112])

/-- Evaluation of a single-direction `Pair.swap` (input `aIn` of token0 pushed
in, `out` of token1 requested, balances as observed after an exact-input
transfer and the optimistic output transfer) down to the fee-adjusted
invariant comparison, for in-range reserves and balances. -/
theorem swap_single_eval {α : Type} (s : PairState α) (aIn out : Nat)
    (ha : 0 < aIn) (h0 : 0 < s.reserve0) (hout : 0 < out) (houtlt : out < s.reserve1)
    (hb : s.reserve0 + aIn < U112) (hr1 : s.reserve1 < U112) :
    Pair.swap s 0 out (s.reserve0 + aIn) (s.reserve1 - out) =
      if (s.reserve0 * 1000 + aIn * 997) * ((s.reserve1 - out) * 1000) <
         s.reserve0 * s.reserve1 * 1000 ^ 2
      then .error .InsufficientInput
      else .ok { s with reserve0 := (s.reserve0 + aIn) % U112,
                        reserve1 := (s.reserve1 - out) % U112 } := by
  have hU : U112 * 1000 < U256 := by norm_num [U112, U256]
  have hU0 : 0 < U112 := by norm_num [U112]
  have hsq : U112 * 1000 * (U112 * 1000) ≤ U256 := by norm_num [U112, U256]
  have hsq2 : U112 * U112 * 1000 ^ 2 ≤ U256 := by norm_num [U112, U256]
  have hin0 : Pair.impliedIn (s.reserve0 + aIn) s.reserve0 0 = aIn := by
    unfold Pair.impliedIn
    rw [if_pos (by omega)]
    omega
  have hin1 : Pair.impliedIn (s.reserve1 - out) s.reserve1 out = 0 := by
    unfold Pair.impliedIn
    rw [if_neg (by omega)]
  unfold Pair.swap
  rw [hin0, hin1]
  have hg1 : ¬((0 : Nat) = 0 ∧ out = 0) := by omega
  have hg2 : ¬(s.reserve0 ≤ 0 ∨ s.reserve1 ≤ out) := by omega
  have hg3 : ¬(aIn = 0 ∧ (0 : Nat) = 0) := by omega
  have hg4 : ¬(U256 ≤ (s.reserve0 + aIn) * 1000) := by omega
  have hg5 : ¬(U256 ≤ aIn * 3) := by omega
  have hg6 : ¬((s.reserve0 + aIn) * 1000 < aIn * 3) := by omega
  have hg7 : ¬(U256 ≤ (s.reserve1 - out) * 1000) := by omega
  have hg8 : ¬(U256 ≤ 0 * 3) := by omega
  have hg9 : ¬((s.reserve1 - out) * 1000 < 0 * 3) := by omega
  rw [if_neg hg1, if_neg hg2, if_neg hg3, if_neg hg4, if_neg hg5, if_neg hg6, if_neg hg7,
      if_neg hg8, if_neg hg9]
  have ha0 : (s.reserve0 + aIn) * 1000 - aIn * 3 < U112 * 1000 := by omega
  have ha1 : (s.reserve1 - out) * 1000 - 0 * 3 < U112 * 1000 := by omega
  rw [if_neg (by
    have := mul_lt_mul'' ha0 ha1 (Nat.zero_le _) (Nat.zero_le _)
    omega)]
  have hr0U : s.reserve0 < U112 := by omega
  have hrr : s.reserve0 * s.reserve1 < U112 * U112 :=
    mul_lt_mul'' hr0U hr1 (Nat.zero_le _) (Nat.zero_le _)
  rw [if_neg (by omega)]
  rw [if_neg (by
    have h2 : s.reserve0 * s.reserve1 * 1000 ^ 2 < U112 * U112 * 1000 ^ 2 :=
      (Nat.mul_lt_mul_right (by norm_num)).2 hrr
    omega)]
  have he0 : (s.reserve0 + aIn) * 1000 - aIn * 3 = s.reserve0 * 1000 + aIn * 997 := by omega
  have he1 : (s.reserve1 - out) * 1000 - 0 * 3 = (s.reserve1 - out) * 1000 := by omega
  rw [he0, he1]

/-- The truncated-division quote `q = aIn*997*rOut / (rIn*1000 + aIn*997)` is
strictly below `rOut`, satisfies the ledger's fee-adjusted comparison, and is
maximal: one more unit fails the comparison. -/
theorem quote_out_bounds (aIn r0 r1 : Nat) (ha : 0 < aIn) (h0 : 0 < r0) (h1 : 0 < r1) :
    aIn * 997 * r1 / (r0 * 1000 + aIn * 997) < r1 ∧
    r0 * r1 * 1000 ^ 2 ≤ (r0 * 1000 + aIn * 997) *
      ((r1 - aIn * 997 * r1 / (r0 * 1000 + aIn * 997)) * 1000) ∧
    (aIn * 997 * r1 / (r0 * 1000 + aIn * 997) + 1 < r1 →
      (r0 * 1000 + aIn * 997) *
        ((r1 - (aIn * 997 * r1 / (r0 * 1000 + aIn * 997) + 1)) * 1000) <
        r0 * r1 * 1000 ^ 2) := by
  set d := r0 * 1000 + aIn * 997 with hdDef
  set n := aIn * 997 * r1 with hnDef
  set q := n / d with hqDef
  have hd : 0 < d := by positivity
  have hqd : d * q ≤ n := Nat.mul_div_le n d
  have hmod : d * q + n % d = n := Nat.div_add_mod n d
  have hmlt : n % d < d := Nat.mod_lt _ hd
  have hdq1 : d * (q + 1) = d * q + d := by ring
  have hlt : n < d * (q + 1) := by omega
  have hdr1 : d * r1 = r0 * 1000 * r1 + n := by
    rw [hdDef, hnDef]
    ring
  have hpos : 0 < r0 * 1000 * r1 := by positivity
  have hq_lt : q < r1 := by
    have hnr : d * q < d * r1 := by omega
    exact Nat.lt_of_mul_lt_mul_left hnr
  refine ⟨hq_lt, ?_, ?_⟩
  · have hsub : d * ((r1 - q) * 1000) = (d * r1 - d * q) * 1000 := by
      rw [← Nat.mul_assoc, Nat.mul_sub]
    rw [hsub]
    have hbig : r0 * 1000 * r1 ≤ d * r1 - d * q := by omega
    calc r0 * r1 * 1000 ^ 2 = r0 * 1000 * r1 * 1000 := by ring
      _ ≤ (d * r1 - d * q) * 1000 := Nat.mul_le_mul_right 1000 hbig
  · intro hq1
    have hsub : d * ((r1 - (q + 1)) * 1000) = (d * r1 - d * (q + 1)) * 1000 := by
      rw [← Nat.mul_assoc, Nat.mul_sub]
    rw [hsub]
    have hsmall : d * r1 - d * (q + 1) < r0 * 1000 * r1 := by omega
    calc (d * r1 - d * (q + 1)) * 1000 < r0 * 1000 * r1 * 1000 :=
        (Nat.mul_lt_mul_right (by norm_num)).2 hsmall
      _ = r0 * r1 * 1000 ^ 2 := by ring

/-- Ledger with a dust-sized output side, for the C2 counterexample. -/
def c2ZeroQuoteLedger : PairState Unit :=
  { self := (), reserve0 := 1000000, reserve1 := 1, totalSupply := 0,
    balanceOf := fun _ => 0, allowance := fun _ _ => 0 }

/-- C2 counterexample: for the positive triple
`(amountIn, reserveIn, reserveOut) = (1, 1000000, 1)` the quote is `0`, and
executing a swap of that quoted output (after transferring in exactly the
input) reverts with `InsufficientOutput` before ever reaching the `1000x/3x`
check — the quoted output is not an executable, check-passing output. -/
theorem c2_quote_counterexample :
    Router.getAmountOut 1 c2ZeroQuoteLedger.reserve0 c2ZeroQuoteLedger.reserve1 = .ok 0 ∧
    Pair.swap c2ZeroQuoteLedger 0 0 (c2ZeroQuoteLedger.reserve0 + 1)
      (c2ZeroQuoteLedger.reserve1 - 0) = .error .InsufficientOutput := by
  constructor
  · simp [Router.getAmountOut, c2ZeroQuoteLedger, U256]
  · simp [Pair.swap, c2ZeroQuoteLedger]

/-- C2 amended: whenever the router's quote on the ledger's reserves (input on
the token0 side) returns a nonzero `out`, and the post-trade balances stay in
the `uint112` range, executing the swap of exactly `out` after transferring in
exactly `amountIn` succeeds — the `1000x/3x` fee-adjusted check accepts it —
and requesting `out + 1` instead always fails: the `997/1000` quote and the
`1000x/3x` check agree bit-for-bit on the maximal output. -/
theorem c2_quote_execute_equivalence {α : Type} (s : PairState α) (amountIn out : Nat)
    (hq : Router.getAmountOut amountIn s.reserve0 s.reserve1 = .ok out)
    (hpos : 0 < out)
    (hbound : s.reserve0 + amountIn < U112) (hr1U : s.reserve1 < U112) :
    Pair.swap s 0 out (s.reserve0 + amountIn) (s.reserve1 - out) =
      .ok { s with reserve0 := s.reserve0 + amountIn, reserve1 := s.reserve1 - out } ∧
    ∀ s' : PairState α,
      Pair.swap s 0 (out + 1) (s.reserve0 + amountIn) (s.reserve1 - (out + 1)) ≠ .ok s' := by
  unfold Router.getAmountOut at hq
  split_ifs at hq with g1 g2 g3 g4 g5 g6
  have hout := Except.ok.inj hq
  have ha : 0 < amountIn := by omega
  have h00 : 0 < s.reserve0 := by omega
  have h11 : 0 < s.reserve1 := by omega
  obtain ⟨hq_lt, hpass, hfail⟩ :=
    quote_out_bounds amountIn s.reserve0 s.reserve1 ha h00 h11
  subst hout
  constructor
  · rw [swap_single_eval s amountIn _ ha h00 hpos hq_lt hbound hr1U]
    rw [if_neg (Nat.not_lt.2 hpass)]
    rw [Nat.mod_eq_of_lt hbound, Nat.mod_eq_of_lt (by omega)]
  · intro s' hcontra
    rcases Nat.lt_or_ge (amountIn * 997 * s.reserve1 /
        (s.reserve0 * 1000 + amountIn * 997) + 1) s.reserve1 with hlt | hge
    · rw [swap_single_eval s amountIn _ ha h00 (by omega) hlt hbound hr1U] at hcontra
      rw [if_pos (hfail hlt)] at hcontra
      exact Except.noConfusion hcontra
    · unfold Pair.swap at hcontra
      rw [if_neg (by omega), if_pos (Or.inr hge)] at hcontra
      exact Except.noConfusion hcontra

/-- Ledger with reserves (1000, 1000) for the C2 witness. -/
def c2Ledger : PairState Unit :=
  { self := (), reserve0 := 1000, reserve1 := 1000, totalSupply := 0,
    balanceOf := fun _ => 0, allowance := fun _ _ => 0 }

/-- Witness for C2 amended: quoting 100 in against reserves (1000, 1000) gives
90 out; the swap of 90 succeeds and the swap of 91 fails. -/
theorem c2_quote_execute_equivalence_witness :
    Pair.swap c2Ledger 0 90 (c2Ledger.reserve0 + 100) (c2Ledger.reserve1 - 90) =
      .ok { c2Ledger with reserve0 := c2Ledger.reserve0 + 100,
                          reserve1 := c2Ledger.reserve1 - 90 } ∧
    ∀ s' : PairState Unit,
      Pair.swap c2Ledger 0 (90 + 1) (c2Ledger.reserve0 + 100)
        (c2Ledger.reserve1 - (90 + 1)) ≠ .ok s' :=
  c2_quote_execute_equivalence c2Ledger 100 90
    (by simp [Router.getAmountOut, c2Ledger, U256]) (by decide) (by decide) (by decide)

theorem sum_update_add {α : Type} [Fintype α] [DecidableEq α] (f : α → Nat) (i : α) (v : Nat) :
    (∑ a, Function.update f i v a) + f i = (∑ a, f a) + v := by
  rw [Finset.sum_update_of_mem (Finset.mem_univ i),
      ← Finset.add_sum_erase Finset.univ f (Finset.mem_univ i), Finset.erase_eq]
  omega

theorem mintShares_ok_inversion {α : Type} [DecidableEq α] (s : PairState α)
    (b0 b1 : Nat) (dst : α) (l : Nat) (s' : PairState α) (l' : Nat)
    (h : Pair.mintShares s b0 b1 dst l = .ok (s', l')) :
    s'.totalSupply = s.totalSupply + l' ∧
    s'.balanceOf = Function.update s.balanceOf dst (s.balanceOf dst + l') := by
  unfold Pair.mintShares at h
  by_cases h1 : l = 0
  · rw [if_pos h1] at h
    exact Except.noConfusion h
  rw [if_neg h1] at h
  by_cases h2 : U256 ≤ s.totalSupply + l
  · rw [if_pos h2] at h
    exact Except.noConfusion h
  rw [if_neg h2] at h
  by_cases h3 : U256 ≤ s.balanceOf dst + l
  · rw [if_pos h3] at h
    exact Except.noConfusion h
  rw [if_neg h3] at h
  injection Except.ok.inj h with h4 h5
  subst h4
  subst h5
  exact ⟨rfl, rfl⟩

theorem mint_ok_inversion {α : Type} [DecidableEq α] (s : PairState α)
    (b0 b1 : Nat) (dst : α) (s' : PairState α) (l : Nat)
    (h : Pair.mint s b0 b1 dst = .ok (s', l)) :
    s'.totalSupply = s.totalSupply + l ∧
    s'.balanceOf = Function.update s.balanceOf dst (s.balanceOf dst + l) := by
  unfold Pair.mint at h
  by_cases h1 : b0 < s.reserve0 ∨ b1 < s.reserve1
  · rw [if_pos h1] at h
    exact Except.noConfusion h
  rw [if_neg h1] at h
  by_cases h2 : b0 - s.reserve0 = 0 ∨ b1 - s.reserve1 = 0
  · rw [if_pos h2] at h
    exact Except.noConfusion h
  rw [if_neg h2] at h
  by_cases h3 : s.totalSupply = 0
  · rw [if_pos h3] at h
    by_cases h4 : U256 ≤ (b0 - s.reserve0) * (b1 - s.reserve1)
    · rw [if_pos h4] at h
      exact Except.noConfusion h
    rw [if_neg h4] at h
    exact mintShares_ok_inversion s b0 b1 dst _ s' l h
  rw [if_neg h3] at h
  by_cases h4 : U256 ≤ (b0 - s.reserve0) * s.totalSupply
  · rw [if_pos h4] at h
    exact Except.noConfusion h
  rw [if_neg h4] at h
  by_cases h5 : s.reserve0 = 0
  · rw [if_pos h5] at h
    exact Except.noConfusion h
  rw [if_neg h5] at h
  by_cases h6 : U256 ≤ (b1 - s.reserve1) * s.totalSupply
  · rw [if_pos h6] at h
    exact Except.noConfusion h
  rw [if_neg h6] at h
  by_cases h7 : s.reserve1 = 0
  · rw [if_pos h7] at h
    exact Except.noConfusion h
  rw [if_neg h7] at h
  exact mintShares_ok_inversion s b0 b1 dst _ s' l h

theorem burn_ok_inversion {α : Type} [DecidableEq α] (s : PairState α)
    (b0 b1 : Nat) (s' : PairState α) (a0 a1 : Nat)
    (h : Pair.burn s b0 b1 = .ok (s', a0, a1)) :
    s'.totalSupply = s.totalSupply - s.balanceOf s.self ∧
    s'.balanceOf =
      Function.update s.balanceOf s.self (s.balanceOf s.self - s.balanceOf s.self) := by
  unfold Pair.burn at h
  by_cases h1 : U256 ≤ s.balanceOf s.self * s.reserve0
  · rw [if_pos h1] at h
    exact Except.noConfusion h
  rw [if_neg h1] at h
  by_cases h2 : s.totalSupply = 0
  · rw [if_pos h2] at h
    exact Except.noConfusion h
  rw [if_neg h2] at h
  by_cases h3 : U256 ≤ s.balanceOf s.self * s.reserve1
  · rw [if_pos h3] at h
    exact Except.noConfusion h
  rw [if_neg h3] at h
  by_cases h4 : s.totalSupply < s.balanceOf s.self
  · rw [if_pos h4] at h
    exact Except.noConfusion h
  rw [if_neg h4] at h
  injection Except.ok.inj h with h5 h6
  subst h5
  exact ⟨rfl, rfl⟩

theorem moveShares_ok_inversion {α : Type} [DecidableEq α] (s : PairState α)
    (src dst : α) (v : Nat) (s' : PairState α)
    (h : Pair.moveShares s src dst v = .ok s') :
    v ≤ s.balanceOf src ∧
    s'.totalSupply = s.totalSupply ∧
    s'.balanceOf =
      Function.update (Function.update s.balanceOf src (s.balanceOf src - v)) dst
        (Function.update s.balanceOf src (s.balanceOf src - v) dst + v) := by
  unfold Pair.moveShares at h
  by_cases h1 : s.balanceOf src < v
  · rw [if_pos h1] at h
    exact Except.noConfusion h
  rw [if_neg h1] at h
  by_cases h2 : U256 ≤ Function.update s.balanceOf src (s.balanceOf src - v) dst + v
  · rw [if_pos h2] at h
    exact Except.noConfusion h
  rw [if_neg h2] at h
  have h3 := Except.ok.inj h
  subst h3
  exact ⟨by omega, rfl, rfl⟩

theorem stepOp_conserves {α : Type} [Fintype α] [DecidableEq α] (s : PairState α)
    (op : LPOp α) (h : ∑ a, s.balanceOf a = s.totalSupply) :
    ∑ a, (stepOp s op).balanceOf a = (stepOp s op).totalSupply := by
  cases op with
  | mintOp b0 b1 dst =>
    rcases hm : Pair.mint s b0 b1 dst with e | p
    · simp only [stepOp, hm]
      exact h
    · obtain ⟨s', l⟩ := p
      simp only [stepOp, hm]
      obtain ⟨hts, hbal⟩ := mint_ok_inversion s b0 b1 dst s' l hm
      have hsum := sum_update_add s.balanceOf dst (s.balanceOf dst + l)
      rw [hbal, hts]
      omega
  | burnOp b0 b1 =>
    rcases hm : Pair.burn s b0 b1 with e | p
    · simp only [stepOp, hm]
      exact h
    · obtain ⟨s', a0, a1⟩ := p
      simp only [stepOp, hm]
      obtain ⟨hts, hbal⟩ := burn_ok_inversion s b0 b1 s' a0 a1 hm
      have hsum := sum_update_add s.balanceOf s.self (s.balanceOf s.self - s.balanceOf s.self)
      have hle : s.balanceOf s.self ≤ ∑ a, s.balanceOf a :=
        Finset.single_le_sum (fun a _ => Nat.zero_le (s.balanceOf a)) (Finset.mem_univ s.self)
      rw [hbal, hts]
      omega
  | transferOp sender dst v =>
    rcases hm : Pair.transfer s sender dst v with e | s'
    · simp only [stepOp, hm]
      exact h
    · simp only [stepOp, hm]
      obtain ⟨hv, hts, hbal⟩ := moveShares_ok_inversion s sender dst v s' hm
      have hsum1 := sum_update_add s.balanceOf sender (s.balanceOf sender - v)
      have hsum2 := sum_update_add (Function.update s.balanceOf sender (s.balanceOf sender - v))
        dst (Function.update s.balanceOf sender (s.balanceOf sender - v) dst + v)
      rw [hbal, hts]
      omega
  | transferFromOp caller fromAcct dst v =>
    rcases hm : Pair.transferFrom s caller fromAcct dst v with e | s'
    · simp only [stepOp, hm]
      exact h
    · simp only [stepOp, hm]
      unfold Pair.transferFrom at hm
      by_cases h1 : s.allowance fromAcct caller = U256 - 1
      · rw [if_pos h1] at hm
        obtain ⟨hv, hts, hbal⟩ := moveShares_ok_inversion s fromAcct dst v s' hm
        have hsum1 := sum_update_add s.balanceOf fromAcct (s.balanceOf fromAcct - v)
        have hsum2 := sum_update_add
          (Function.update s.balanceOf fromAcct (s.balanceOf fromAcct - v)) dst
          (Function.update s.balanceOf fromAcct (s.balanceOf fromAcct - v) dst + v)
        rw [hbal, hts]
        omega
      · rw [if_neg h1] at hm
        by_cases h2 : s.allowance fromAcct caller < v
        · rw [if_pos h2] at hm
          exact Except.noConfusion hm
        rw [if_neg h2] at hm
        obtain ⟨hv, hts, hbal⟩ := moveShares_ok_inversion _ fromAcct dst v s' hm
        dsimp only at hv hts hbal
        have hsum1 := sum_update_add s.balanceOf fromAcct (s.balanceOf fromAcct - v)
        have hsum2 := sum_update_add
          (Function.update s.balanceOf fromAcct (s.balanceOf fromAcct - v)) dst
          (Function.update s.balanceOf fromAcct (s.balanceOf fromAcct - v) dst + v)
        rw [hbal, hts]
        omega

theorem runOps_conserves {α : Type} [Fintype α] [DecidableEq α] :
    ∀ (ops : List (LPOp α)) (s : PairState α),
      (∑ a, s.balanceOf a = s.totalSupply) →
      ∑ a, (runOps s ops).balanceOf a = (runOps s ops).totalSupply := by
  intro ops
  induction ops with
  | nil => intro s h; exact h
  | cons op rest ih =>
    intro s h
    exact ih (stepOp s op) (stepOp_conserves s op h)

/-- C6: starting from a fresh ledger (zero share balances, zero total supply),
after every sequence of the share-mutating operations (`mint`, `burn`,
LP-share `transfer`/`transferFrom`) the sum of `balanceOf` over all owners
equals `totalSupply`. -/
theorem c6_share_conservation {α : Type} [Fintype α] [DecidableEq α] (self : α)
    (ops : List (LPOp α)) :
    ∑ a, (runOps (freshPair self) ops).balanceOf a = (runOps (freshPair self) ops).totalSupply :=
  runOps_conserves ops (freshPair self) (by simp [freshPair])

theorem getAmountsOutGo_ok (fst : FactoryState) (res : Nat → Nat × Nat) :
    ∀ (rest : List Nat) (t amt : Nat) (amounts : List Nat),
      Router.getAmountsOutGo fst res amt (t :: rest) = .ok amounts →
      amounts.length = (t :: rest).length ∧ amounts.getD 0 0 = amt ∧
      ∀ i, i + 1 < (t :: rest).length →
        fst.getPair ((t :: rest).getD i 0) ((t :: rest).getD (i + 1) 0) ≠ 0 ∧
        Router.getAmountOut (amounts.getD i 0)
          (Router.orient ((t :: rest).getD i 0) ((t :: rest).getD (i + 1) 0)
            (res (fst.getPair ((t :: rest).getD i 0) ((t :: rest).getD (i + 1) 0))).1
            (res (fst.getPair ((t :: rest).getD i 0) ((t :: rest).getD (i + 1) 0))).2).1
          (Router.orient ((t :: rest).getD i 0) ((t :: rest).getD (i + 1) 0)
            (res (fst.getPair ((t :: rest).getD i 0) ((t :: rest).getD (i + 1) 0))).1
            (res (fst.getPair ((t :: rest).getD i 0) ((t :: rest).getD (i + 1) 0))).2).2
          = .ok (amounts.getD (i + 1) 0) := by
  intro rest
  induction rest with
  | nil =>
    intro t amt amounts h
    simp only [Router.getAmountsOutGo] at h
    have h2 := Except.ok.inj h
    subst h2
    refine ⟨rfl, rfl, ?_⟩
    intro i hi
    simp at hi
  | cons t1 rest' ih =>
    intro t0 amt amounts h
    simp only [Router.getAmountsOutGo] at h
    by_cases hp : fst.getPair t0 t1 = 0
    · rw [if_pos hp] at h
      exact Except.noConfusion h
    rw [if_neg hp] at h
    rcases hGA : Router.getAmountOut amt
        (Router.orient t0 t1 (res (fst.getPair t0 t1)).1 (res (fst.getPair t0 t1)).2).1
        (Router.orient t0 t1 (res (fst.getPair t0 t1)).1 (res (fst.getPair t0 t1)).2).2
      with e | next
    · rw [hGA] at h
      dsimp only at h
      exact Except.noConfusion h
    rw [hGA] at h
    dsimp only at h
    rcases hGo : Router.getAmountsOutGo fst res next (t1 :: rest') with e2 | tail
    · rw [hGo] at h
      dsimp only at h
      exact Except.noConfusion h
    rw [hGo] at h
    dsimp only at h
    have h2 := Except.ok.inj h
    subst h2
    obtain ⟨ihlen, ihhead, ihhops⟩ := ih t1 next tail hGo
    refine ⟨by simp [ihlen], rfl, ?_⟩
    intro i hi
    cases i with
    | zero =>
      refine ⟨hp, ?_⟩
      simp only [List.getD_cons_zero, List.getD_cons_succ]
      rw [← ihhead] at hGA
      exact hGA
    | succ j =>
      simp only [List.getD_cons_succ]
      exact ihhops j (by simpa using hi)

/-- Head-step inversion of one successful loop iteration of
`Router.getAmountsOut`: the first hop's pair is registered, its quote
succeeded, and the rest of the loop succeeded on the remaining path. -/
theorem getAmountsOutGo_step_inversion (fst : FactoryState) (res : Nat → Nat × Nat)
    (t0 t1 : Nat) (rest : List Nat) (amt : Nat) (amounts : List Nat)
    (h : Router.getAmountsOutGo fst res amt (t0 :: t1 :: rest) = .ok amounts) :
    fst.getPair t0 t1 ≠ 0 ∧
    ∃ next tail,
      Router.getAmountOut amt
        (Router.orient t0 t1 (res (fst.getPair t0 t1)).1 (res (fst.getPair t0 t1)).2).1
        (Router.orient t0 t1 (res (fst.getPair t0 t1)).1 (res (fst.getPair t0 t1)).2).2
        = .ok next ∧
      Router.getAmountsOutGo fst res next (t1 :: rest) = .ok tail ∧
      amounts = amt :: tail := by
  simp only [Router.getAmountsOutGo] at h
  by_cases hp : fst.getPair t0 t1 = 0
  · rw [if_pos hp] at h
    exact Except.noConfusion h
  rw [if_neg hp] at h
  rcases hGA : Router.getAmountOut amt
      (Router.orient t0 t1 (res (fst.getPair t0 t1)).1 (res (fst.getPair t0 t1)).2).1
      (Router.orient t0 t1 (res (fst.getPair t0 t1)).1 (res (fst.getPair t0 t1)).2).2
    with e | next
  · rw [hGA] at h
    dsimp only at h
    exact Except.noConfusion h
  rw [hGA] at h
  dsimp only at h
  rcases hGo : Router.getAmountsOutGo fst res next (t1 :: rest) with e2 | tail
  · rw [hGo] at h
    dsimp only at h
    exact Except.noConfusion h
  rw [hGo] at h
  dsimp only at h
  exact ⟨hp, next, tail, rfl, hGo, (Except.ok.inj h).symm⟩

/-- A loop error on the remaining path propagates unchanged through a
successful first hop. -/
theorem getAmountsOutGo_step_error (fst : FactoryState) (res : Nat → Nat × Nat)
    (t0 t1 : Nat) (rest : List Nat) (amt next : Nat) (e : AmmError)
    (hp : fst.getPair t0 t1 ≠ 0)
    (hq : Router.getAmountOut amt
      (Router.orient t0 t1 (res (fst.getPair t0 t1)).1 (res (fst.getPair t0 t1)).2).1
      (Router.orient t0 t1 (res (fst.getPair t0 t1)).1 (res (fst.getPair t0 t1)).2).2
      = .ok next)
    (he : Router.getAmountsOutGo fst res next (t1 :: rest) = .error e) :
    Router.getAmountsOutGo fst res amt (t0 :: t1 :: rest) = .error e := by
  simp only [Router.getAmountsOutGo]
  rw [if_neg hp, hq]
  dsimp only
  rw [he]

/-- A missing pair at the hop being executed yields `PairNotFound`. -/
theorem getAmountsOutGo_missing_first (fst : FactoryState) (res : Nat → Nat × Nat)
    (t0 t1 : Nat) (rest : List Nat) (amt : Nat) (hp : fst.getPair t0 t1 = 0) :
    Router.getAmountsOutGo fst res amt (t0 :: t1 :: rest) = .error .PairNotFound := by
  simp only [Router.getAmountsOutGo]
  rw [if_pos hp]

/-- If the pair of hop `i` is unregistered and the loop succeeds on the prefix
ending at token `i` (all earlier hops look up a pair and quote successfully),
the loop fails with `PairNotFound`. -/
theorem getAmountsOutGo_pairNotFound (fst : FactoryState) (res : Nat → Nat × Nat) :
    ∀ (rest : List Nat) (t0 i amt : Nat) (pre : List Nat),
      i + 1 < (t0 :: rest).length →
      fst.getPair ((t0 :: rest).getD i 0) ((t0 :: rest).getD (i + 1) 0) = 0 →
      Router.getAmountsOutGo fst res amt ((t0 :: rest).take (i + 1)) = .ok pre →
      Router.getAmountsOutGo fst res amt (t0 :: rest) = .error .PairNotFound := by
  intro rest
  induction rest with
  | nil =>
    intro t0 i amt pre hi _ _
    simp only [List.length_cons, List.length_nil] at hi
    omega
  | cons t1 rest' ih =>
    intro t0 i amt pre hi hmiss hpre
    cases i with
    | zero =>
      exact getAmountsOutGo_missing_first fst res t0 t1 rest' amt (by simpa using hmiss)
    | succ j =>
      simp only [List.getD_cons_succ] at hmiss
      rw [show (t0 :: t1 :: rest').take (j + 2) = t0 :: t1 :: rest'.take j by
        simp [List.take_succ_cons]] at hpre
      obtain ⟨hp0, next, tail, hq, hgo, rfl⟩ :=
        getAmountsOutGo_step_inversion fst res t0 t1 (rest'.take j) amt pre hpre
      have hgo' : Router.getAmountsOutGo fst res next ((t1 :: rest').take (j + 1)) = .ok tail := by
        rw [show (t1 :: rest').take (j + 1) = t1 :: rest'.take j by simp [List.take_succ_cons]]
        exact hgo
      have hrec := ih t1 j next tail (by simpa using hi) hmiss hgo'
      exact getAmountsOutGo_step_error fst res t0 t1 rest' amt next _ hp0 hq hrec

/-- Characterization of a successful `Router.getAmountsOut` call: the amounts
array has the path's length, starts with the input amount, and every hop's
pair is registered with the hop equation holding on oriented reserves. -/
theorem getAmountsOut_ok_spec (fst : FactoryState) (res : Nat → Nat × Nat)
    (amountIn : Nat) (path : List Nat) (amounts : List Nat)
    (h : Router.getAmountsOut fst res amountIn path = .ok amounts) :
    amounts.length = path.length ∧ amounts.getD 0 0 = amountIn ∧
    ∀ i, i + 1 < path.length →
      fst.getPair (path.getD i 0) (path.getD (i + 1) 0) ≠ 0 ∧
      Router.getAmountOut (amounts.getD i 0)
        (Router.orient (path.getD i 0) (path.getD (i + 1) 0)
          (res (fst.getPair (path.getD i 0) (path.getD (i + 1) 0))).1
          (res (fst.getPair (path.getD i 0) (path.getD (i + 1) 0))).2).1
        (Router.orient (path.getD i 0) (path.getD (i + 1) 0)
          (res (fst.getPair (path.getD i 0) (path.getD (i + 1) 0))).1
          (res (fst.getPair (path.getD i 0) (path.getD (i + 1) 0))).2).2
        = .ok (amounts.getD (i + 1) 0) := by
  unfold Router.getAmountsOut at h
  by_cases hlen : path.length < 2
  · rw [if_pos hlen] at h
    exact Except.noConfusion h
  rw [if_neg hlen] at h
  match path, hlen with
  | t :: rest, _ => exact getAmountsOutGo_ok fst res rest t amountIn amounts h

/-- Factory whose only registered pair is (1, 2) at address 9, with every pair
reporting zero reserves; pair (2, 3) is unregistered. -/
def c9CexFactory : FactoryState :=
  { getPair := fun a b => if (a = 1 ∧ b = 2) ∨ (a = 2 ∧ b = 1) then 9 else 0,
    allPairs := [9] }

/-- Reserve oracle reporting empty reserves for every pair. -/
def c9CexReserves : Nat → Nat × Nat := fun _ => (0, 0)

/-- C9 counterexample: on the path [1, 2, 3] the consecutive pair (2, 3) has
no registered ledger, yet `getAmountsOut` fails with `InsufficientLiquidity` —
the first hop's quote on zero reserves fails before the missing pair is ever
looked up — so the claim that a missing pair anywhere makes the call fail with
`PairNotFound` is false. -/
theorem c9_pairNotFound_counterexample :
    c9CexFactory.getPair 2 3 = 0 ∧
    Router.getAmountsOut c9CexFactory c9CexReserves 100 [1, 2, 3] =
      .error .InsufficientLiquidity ∧
    (AmmError.InsufficientLiquidity ≠ AmmError.PairNotFound) := by
  refine ⟨rfl, ?_, by decide⟩
  simp [Router.getAmountsOut, Router.getAmountsOutGo, Router.getAmountOut, Router.orient,
    c9CexFactory, c9CexReserves, U256]

/-- C9 amended: `getAmountsOut` fails with `PathTooShort` when the path has
fewer than two tokens; it fails with `PairNotFound` when some consecutive pair
is unregistered and the loop succeeds on all earlier hops (each looked up a
registered pair and quoted successfully) — not when an earlier hop's quote
fails first; a missing pair anywhere still guarantees the call cannot succeed;
and on success it returns an amounts array of the path's length with
`amounts[0] = amountIn` in which every hop's pair is registered and
`amounts[i+1]` is exactly `getAmountOut amounts[i]` on that hop's reserves,
oriented by the canonical token ordering (`path[i] < path[i+1]` selects the
input side). -/
theorem c9_quotePath_functional (fst : FactoryState) (res : Nat → Nat × Nat) (amountIn : Nat)
    (path : List Nat) :
    (path.length < 2 → Router.getAmountsOut fst res amountIn path = .error .PathTooShort) ∧
    (∀ i (pre : List Nat), i + 1 < path.length →
      fst.getPair (path.getD i 0) (path.getD (i + 1) 0) = 0 →
      Router.getAmountsOutGo fst res amountIn (path.take (i + 1)) = .ok pre →
      Router.getAmountsOut fst res amountIn path = .error .PairNotFound) ∧
    (∀ i, i + 1 < path.length →
      fst.getPair (path.getD i 0) (path.getD (i + 1) 0) = 0 →
      ∀ amounts, Router.getAmountsOut fst res amountIn path ≠ .ok amounts) ∧
    (∀ amounts, Router.getAmountsOut fst res amountIn path = .ok amounts →
      amounts.length = path.length ∧ amounts.getD 0 0 = amountIn ∧
      ∀ i, i + 1 < path.length →
        fst.getPair (path.getD i 0) (path.getD (i + 1) 0) ≠ 0 ∧
        Router.getAmountOut (amounts.getD i 0)
          (Router.orient (path.getD i 0) (path.getD (i + 1) 0)
            (res (fst.getPair (path.getD i 0) (path.getD (i + 1) 0))).1
            (res (fst.getPair (path.getD i 0) (path.getD (i + 1) 0))).2).1
          (Router.orient (path.getD i 0) (path.getD (i + 1) 0)
            (res (fst.getPair (path.getD i 0) (path.getD (i + 1) 0))).1
            (res (fst.getPair (path.getD i 0) (path.getD (i + 1) 0))).2).2
          = .ok (amounts.getD (i + 1) 0)) := by
  refine ⟨?_, ?_, ?_, ?_⟩
  · intro hlen
    unfold Router.getAmountsOut
    rw [if_pos hlen]
  · intro i pre hi hmiss hpre
    cases path with
    | nil => simp at hi
    | cons t rest =>
      unfold Router.getAmountsOut
      rw [if_neg (by simp only [List.length_cons] at hi ⊢; omega)]
      exact getAmountsOutGo_pairNotFound fst res rest t i amountIn pre hi hmiss hpre
  · intro i hi hmiss amounts hok
    obtain ⟨_, _, hops⟩ := getAmountsOut_ok_spec fst res amountIn path amounts hok
    exact (hops i hi).1 hmiss
  · intro amounts h
    exact getAmountsOut_ok_spec fst res amountIn path amounts h

/-- Factory with one registered pair (1, 2) at address 7 and reserves
(1000, 1000); pair (2, 3) is unregistered. -/
def c9Factory : FactoryState :=
  { getPair := fun a b => if (a = 1 ∧ b = 2) ∨ (a = 2 ∧ b = 1) then 7 else 0,
    allPairs := [7] }

/-- Reserve oracle for `c9Factory`. -/
def c9Reserves : Nat → Nat × Nat := fun p => if p = 7 then (1000, 1000) else (0, 0)

/-- Witness for C9 amended: a one-token path fails with `PathTooShort`; on the
path [1, 2, 3] hop 0 quotes 100 into 90 through the registered pair and the
missing pair (2, 3) is then reported as `PairNotFound`; the successful
two-token quote [1, 2] yields the array [100, 90]. -/
theorem c9_quotePath_functional_witness :
    Router.getAmountsOut c9Factory c9Reserves 100 [5] = .error .PathTooShort ∧
    Router.getAmountsOut c9Factory c9Reserves 100 [1, 2, 3] = .error .PairNotFound ∧
    ([100, 90] : List Nat).length = ([1, 2] : List Nat).length ∧
    ([100, 90] : List Nat).getD 0 0 = 100 := by
  have hok : Router.getAmountsOut c9Factory c9Reserves 100 [1, 2] = .ok [100, 90] := by
    simp [Router.getAmountsOut, Router.getAmountsOutGo, Router.getAmountOut, Router.orient,
      c9Factory, c9Reserves, U256]
  have hpre : Router.getAmountsOutGo c9Factory c9Reserves 100 (([1, 2, 3] : List Nat).take 2)
      = .ok [100, 90] := by
    simp [Router.getAmountsOutGo, Router.getAmountOut, Router.orient,
      c9Factory, c9Reserves, U256]
  obtain ⟨hlen, hhead, _⟩ :=
    (c9_quotePath_functional c9Factory c9Reserves 100 [1, 2]).2.2.2 [100, 90] hok
  exact ⟨(c9_quotePath_functional c9Factory c9Reserves 100 [5]).1 (by decide),
    (c9_quotePath_functional c9Factory c9Reserves 100 [1, 2, 3]).2.1 1 [100, 90]
      (by decide) (by decide) hpre,
    hlen, hhead⟩
